import Mathlib

/-!
Verification of the hotel reservation system (`hotel_system/` package:
`models.py`, `storage.py`, `services.py`) against its design specification.

The embedding is shallow: Python dataclasses become Lean structures, the
JSON documents behind each collection become in-memory lists, and each
service operation becomes a function `State → Except Err α × State`.
Every `raise` in the Python code happens before any `save_list` call, so
an operation that fails leaves the persisted collections untouched; the
embedding reflects this by returning the unchanged input state alongside
the error.
-/

namespace HotelSys

/-! ## Calendar dates

`datetime.date` values: a (year, month, day) triple, validated on
construction (`1 <= year <= 9999`, `1 <= month <= 12`,
`1 <= day <= days_in_month`), totally ordered lexicographically. -/

structure Date where
  year : Nat
  month : Nat
  day : Nat
deriving DecidableEq, Repr

/-- Lexicographic order on dates, as implemented by `datetime.date.__le__`. -/
def Date.Le (a b : Date) : Prop :=
  a.year < b.year ∨ (a.year = b.year ∧
    (a.month < b.month ∨ (a.month = b.month ∧ a.day ≤ b.day)))

/-- Strict lexicographic order on dates (`datetime.date.__lt__`). -/
def Date.Lt (a b : Date) : Prop :=
  a.year < b.year ∨ (a.year = b.year ∧
    (a.month < b.month ∨ (a.month = b.month ∧ a.day < b.day)))

instance (a b : Date) : Decidable (Date.Le a b) := by
  unfold Date.Le; infer_instance

instance (a b : Date) : Decidable (Date.Lt a b) := by
  unfold Date.Lt; infer_instance

/-- Boolean form of `Date.Le`, used where the Python code evaluates `<=`. -/
def Date.leb (a b : Date) : Bool := decide (Date.Le a b)

/-- Boolean form of `Date.Lt`, used where the Python code evaluates `<`. -/
def Date.ltb (a b : Date) : Bool := decide (Date.Lt a b)

theorem Date.leb_iff (a b : Date) : Date.leb a b = true ↔ Date.Le a b := by
  simp [Date.leb]

theorem Date.ltb_iff (a b : Date) : Date.ltb a b = true ↔ Date.Lt a b := by
  simp [Date.ltb]

theorem Date.not_le_iff (a b : Date) : ¬ Date.Le a b ↔ Date.Lt b a := by
  unfold Date.Le Date.Lt; omega

theorem Date.le_trans {a b c : Date} (h1 : Date.Le a b) (h2 : Date.Le b c) :
    Date.Le a c := by
  unfold Date.Le at *; omega

theorem Date.le_lt_trans {a b c : Date} (h1 : Date.Le a b) (h2 : Date.Lt b c) :
    Date.Lt a c := by
  unfold Date.Le Date.Lt at *; omega

theorem Date.lt_le_trans {a b c : Date} (h1 : Date.Lt a b) (h2 : Date.Le b c) :
    Date.Lt a c := by
  unfold Date.Le Date.Lt at *; omega

theorem Date.lt_irrefl (a : Date) : ¬ Date.Lt a a := by
  unfold Date.Lt; omega

/-- `calendar`-style leap year rule used by `datetime`. -/
def isLeap (y : Nat) : Bool :=
  y % 4 == 0 && (y % 100 != 0 || y % 400 == 0)

/-- Days in a month, as validated by the `datetime.date` constructor. -/
def daysInMonth (y m : Nat) : Nat :=
  if m = 2 then (if isLeap y then 29 else 28)
  else if m = 4 ∨ m = 6 ∨ m = 9 ∨ m = 11 then 30
  else 31

/-- The validity predicate enforced by the `datetime.date` constructor. -/
def Date.valid (d : Date) : Bool :=
  1 ≤ d.year && d.year ≤ 9999 && 1 ≤ d.month && d.month ≤ 12 &&
    1 ≤ d.day && d.day ≤ daysInMonth d.year d.month

/-- One decimal digit as a character. -/
def digitChar : Nat → Char
  | 0 => '0' | 1 => '1' | 2 => '2' | 3 => '3' | 4 => '4'
  | 5 => '5' | 6 => '6' | 7 => '7' | 8 => '8' | 9 => '9'
  | _ => '*'

/-- Numeric value of a decimal digit character. -/
def digitVal? (c : Char) : Option Nat :=
  if '0' ≤ c ∧ c ≤ '9' then some (c.toNat - 48) else none

/-- Four-digit zero-padded decimal rendering (years are at most 9999). -/
def pad4 (n : Nat) : List Char :=
  [digitChar (n / 1000 % 10), digitChar (n / 100 % 10),
   digitChar (n / 10 % 10), digitChar (n % 10)]

/-- Two-digit zero-padded decimal rendering. -/
def pad2 (n : Nat) : List Char :=
  [digitChar (n / 10 % 10), digitChar (n % 10)]

/-- `datetime.date.isoformat`: the `YYYY-MM-DD` rendering of a date. -/
def Date.isoformat (d : Date) : String :=
  String.mk (pad4 d.year ++ '-' :: (pad2 d.month ++ '-' :: pad2 d.day))

/-- `datetime.date.fromisoformat` on the canonical `YYYY-MM-DD` shape:
parses the fixed-width digit layout and re-validates the calendar bounds,
returning `none` where Python raises `ValueError`. -/
def Date.fromisoformat (s : String) : Option Date :=
  match s.data with
  | [y1, y2, y3, y4, sep1, m1, m2, sep2, d1, d2] =>
    if sep1 = '-' ∧ sep2 = '-' then
      match digitVal? y1, digitVal? y2, digitVal? y3, digitVal? y4,
            digitVal? m1, digitVal? m2, digitVal? d1, digitVal? d2 with
      | some a, some b, some c, some e, some f, some g, some h, some i =>
        let dt : Date := ⟨1000 * a + 100 * b + 10 * c + e, 10 * f + g, 10 * h + i⟩
        if dt.valid then some dt else none
      | _, _, _, _, _, _, _, _ => none
    else none
  | _ => none

theorem digitVal?_digitChar (k : Nat) (h : k < 10) :
    digitVal? (digitChar k) = some k := by
  interval_cases k <;> rfl

/-- Parsing inverts printing on every calendar-valid date. -/
theorem Date.fromisoformat_isoformat (d : Date) (h : d.valid = true) :
    Date.fromisoformat (Date.isoformat d) = some d := by
  obtain ⟨y, m, dd⟩ := d
  have hb : 1 ≤ y ∧ y ≤ 9999 ∧ 1 ≤ m ∧ m ≤ 12 ∧ 1 ≤ dd ∧
      dd ≤ daysInMonth y m := by
    have hv := h; simp [Date.valid] at hv; omega
  have hdm : daysInMonth y m ≤ 31 := by
    unfold daysInMonth; split <;> [split <;> omega; split <;> omega]
  unfold Date.isoformat Date.fromisoformat pad4 pad2
  simp only [List.cons_append, List.nil_append]
  rw [digitVal?_digitChar _ (by omega), digitVal?_digitChar _ (by omega),
      digitVal?_digitChar _ (by omega), digitVal?_digitChar _ (by omega),
      digitVal?_digitChar _ (by omega), digitVal?_digitChar _ (by omega),
      digitVal?_digitChar _ (by omega), digitVal?_digitChar _ (by omega)]
  have hy : 1000 * (y / 1000 % 10) + 100 * (y / 100 % 10) +
      10 * (y / 10 % 10) + y % 10 = y := by omega
  have hm : 10 * (m / 10 % 10) + m % 10 = m := by omega
  have hd : 10 * (dd / 10 % 10) + dd % 10 = dd := by omega
  simp only [if_pos (And.intro rfl rfl), hy, hm, hd, h]
  simp

/-! ## Entity model (`models.py`) -/

/-- `Hotel` dataclass (models.py:12-38). -/
structure Hotel where
  hotel_id : String
  name : String
  city : String
  total_rooms : Int
deriving DecidableEq, Repr

/-- `Customer` dataclass (models.py:41-64). -/
structure Customer where
  customer_id : String
  full_name : String
  email : String
deriving DecidableEq, Repr

/-- `Reservation` dataclass (models.py:67-99). -/
structure Reservation where
  reservation_id : String
  hotel_id : String
  customer_id : String
  check_in : Date
  check_out : Date
  rooms : Int
deriving DecidableEq, Repr

/-! ## JSON values and the dict coercions used by `from_dict` -/

/-- A parsed JSON value. The repository only ever stores strings and
integers in entity records, but loaded documents may contain anything. -/
inductive Json where
  | null
  | bool (b : Bool)
  | num (n : Int)
  | str (s : String)
  | arr (elems : List Json)
  | obj (fields : List (String × Json))

/-- Python `str()` applied to a JSON-derived value. The entity decoders
only ever reach the `str` and `num` cases; containers are rendered
opaquely here since no claim depends on their text. -/
def Json.pyStr : Json → String
  | .null => "None"
  | .bool true => "True"
  | .bool false => "False"
  | .num n => toString n
  | .str s => s
  | .arr _ => "<list>"
  | .obj _ => "<dict>"

/-- Python `int()` applied to a JSON-derived value: identity on integers,
0/1 on booleans, decimal parse on strings (`ValueError` → `none`),
`TypeError` → `none` on the rest. -/
def Json.pyInt : Json → Option Int
  | .num n => some n
  | .bool b => some (if b then 1 else 0)
  | .str s => s.toInt?
  | _ => none

/-- Decode-time failures: `KeyError` on a missing key, `ValueError` /
`TypeError` on a value that cannot be coerced. -/
inductive DecodeErr where
  | missingField (key : String)
  | typeMismatch (msg : String)
deriving DecidableEq, Repr

/-- A JSON object's field list, in insertion order with unique keys. -/
abbrev Dict := List (String × Json)

/-- `data[k]` lookup on a decoded JSON object. -/
def Dict.get? (d : Dict) (k : String) : Option Json :=
  (d.find? (fun p => p.1 == k)).map (fun p => p.2)

/-- `data[k]` with `KeyError` on absence. -/
def Dict.getField (d : Dict) (k : String) : Except DecodeErr Json :=
  match Dict.get? d k with
  | some v => .ok v
  | none => .error (.missingField k)

/-! ## encode / decode (`to_dict` / `from_dict`) -/

/-- `Hotel.to_dict` (models.py:21-28). -/
def Hotel.to_dict (h : Hotel) : Dict :=
  [("hotel_id", .str h.hotel_id), ("name", .str h.name),
   ("city", .str h.city), ("total_rooms", .num h.total_rooms)]

/-- `Hotel.from_dict` (models.py:30-38): `str()` around the three string
fields, `int()` around `total_rooms`. -/
def Hotel.from_dict (d : Dict) : Except DecodeErr Hotel := do
  let hid ← Dict.getField d "hotel_id"
  let nm ← Dict.getField d "name"
  let ct ← Dict.getField d "city"
  let tr ← Dict.getField d "total_rooms"
  match tr.pyInt with
  | some n => .ok ⟨hid.pyStr, nm.pyStr, ct.pyStr, n⟩
  | none => .error (.typeMismatch "total_rooms")

/-- `Customer.to_dict` (models.py:49-55). -/
def Customer.to_dict (c : Customer) : Dict :=
  [("customer_id", .str c.customer_id), ("full_name", .str c.full_name),
   ("email", .str c.email)]

/-- `Customer.from_dict` (models.py:57-64). -/
def Customer.from_dict (d : Dict) : Except DecodeErr Customer := do
  let cid ← Dict.getField d "customer_id"
  let fn ← Dict.getField d "full_name"
  let em ← Dict.getField d "email"
  .ok ⟨cid.pyStr, fn.pyStr, em.pyStr⟩

/-- `Reservation.to_dict` (models.py:78-87): dates rendered through
`isoformat`. -/
def Reservation.to_dict (r : Reservation) : Dict :=
  [("reservation_id", .str r.reservation_id), ("hotel_id", .str r.hotel_id),
   ("customer_id", .str r.customer_id),
   ("check_in", .str r.check_in.isoformat),
   ("check_out", .str r.check_out.isoformat),
   ("rooms", .num r.rooms)]

/-- `Reservation.from_dict` (models.py:89-99): dates parsed with
`date.fromisoformat(str(...))`, rooms with `int()`. -/
def Reservation.from_dict (d : Dict) : Except DecodeErr Reservation := do
  let rid ← Dict.getField d "reservation_id"
  let hid ← Dict.getField d "hotel_id"
  let cid ← Dict.getField d "customer_id"
  let ci ← Dict.getField d "check_in"
  let co ← Dict.getField d "check_out"
  let rm ← Dict.getField d "rooms"
  match Date.fromisoformat ci.pyStr with
  | none => .error (.typeMismatch "check_in")
  | some cin =>
    match Date.fromisoformat co.pyStr with
    | none => .error (.typeMismatch "check_out")
    | some cout =>
      match rm.pyInt with
      | some n => .ok ⟨rid.pyStr, hid.pyStr, cid.pyStr, cin, cout, n⟩
      | none => .error (.typeMismatch "rooms")

/-- C5: for every valid entity of each of the three entity types — Hotel,
Customer, and Reservation, whose dates are rendered as ISO-8601 strings by
`to_dict` — decoding the encoding returns the entity unchanged:
`from_dict (to_dict x) = ok x`. For reservations, validity means both
dates satisfy the calendar bounds `datetime.date` guarantees. -/
theorem C5_encode_decode_roundtrip :
    (∀ h : Hotel, Hotel.from_dict (Hotel.to_dict h) = .ok h) ∧
    (∀ c : Customer, Customer.from_dict (Customer.to_dict c) = .ok c) ∧
    (∀ r : Reservation, r.check_in.valid = true → r.check_out.valid = true →
      Reservation.from_dict (Reservation.to_dict r) = .ok r) := by
  refine ⟨fun h => ?_, fun c => ?_, fun r h1 h2 => ?_⟩
  · simp [Hotel.from_dict, Hotel.to_dict, Dict.getField, Dict.get?,
      Json.pyStr, Json.pyInt, List.find?, bind, Except.bind]
  · simp [Customer.from_dict, Customer.to_dict, Dict.getField, Dict.get?,
      Json.pyStr, List.find?, bind, Except.bind]
  · simp [Reservation.from_dict, Reservation.to_dict, Dict.getField,
      Dict.get?, Json.pyStr, Json.pyInt, List.find?, bind, Except.bind,
      Date.fromisoformat_isoformat _ h1, Date.fromisoformat_isoformat _ h2]

/-- Witness for C5 at a concrete reservation with valid dates. -/
theorem C5_encode_decode_roundtrip_witness :
    Reservation.from_dict (Reservation.to_dict
      ⟨"R1", "H1", "C1", ⟨2026, 3, 10⟩, ⟨2026, 3, 15⟩, 2⟩) =
      .ok ⟨"R1", "H1", "C1", ⟨2026, 3, 10⟩, ⟨2026, 3, 15⟩, 2⟩ :=
  C5_encode_decode_roundtrip.2.2
    ⟨"R1", "H1", "C1", ⟨2026, 3, 10⟩, ⟨2026, 3, 15⟩, 2⟩
    (by decide) (by decide)

/-! ## Service layer (`services.py`)

The three JSON-backed collections become one in-memory `State`. Each
operation mirrors its Python method body; since every `raise` in
`services.py` happens before any `save_list` call, a failing operation
returns the error paired with the unchanged input state. -/

/-- The persisted collections behind `HotelSystem`'s three stores. -/
structure State where
  hotels : List Hotel
  customers : List Customer
  reservations : List Reservation
deriving DecidableEq, Repr

/-- Service failures: `NotFoundError` and `ValidationError`
(services.py:17-22). The spec's taxonomy maps onto these by message:
AlreadyExists, InvalidInput, ReferentialConflict and CapacityExceeded are
all `ValidationError` with distinct messages. -/
inductive Err where
  | notFound (msg : String)
  | validation (msg : String)
deriving DecidableEq, Repr

/-- Membership test `k in index_by_id(items)` (storage.py:87-96): the dict
contains `k` iff some item has that id. -/
def index_contains {α : Type} (items : List α) (get_id : α → String)
    (k : String) : Bool :=
  items.any (fun it => get_id it == k)

/-- Lookup `index_by_id(items)[k]`: the dict is built by insertion with
later duplicates overwriting earlier ones, so lookup returns the last
item bearing the key. -/
def index_get? {α : Type} (items : List α) (get_id : α → String)
    (k : String) : Option α :=
  (items.filter (fun it => get_id it == k)).getLast?

/-- `HotelSystem.create_hotel` (services.py:68-76). -/
def create_hotel (s : State) (hotel : Hotel) : Except Err Unit × State :=
  if index_contains s.hotels Hotel.hotel_id hotel.hotel_id then
    (.error (.validation ("Hotel already exists: " ++ hotel.hotel_id)), s)
  else if hotel.total_rooms ≤ 0 then
    (.error (.validation "total_rooms must be > 0"), s)
  else
    (.ok (), { s with hotels := s.hotels ++ [hotel] })

/-- `HotelSystem.delete_hotel` (services.py:78-88). -/
def delete_hotel (s : State) (hotel_id : String) : Except Err Unit × State :=
  if !(s.hotels.any (fun h => h.hotel_id == hotel_id)) then
    (.error (.notFound ("Hotel not found: " ++ hotel_id)), s)
  else if s.reservations.any (fun r => r.hotel_id == hotel_id) then
    (.error (.validation "Cannot delete hotel with active reservations"), s)
  else
    (.ok (), { s with hotels := s.hotels.filter (fun h => !(h.hotel_id == hotel_id)) })

/-- `HotelSystem.display_hotel` (services.py:90-95): first hotel with the
id, else `NotFoundError`. Reads no state, so it returns only the result. -/
def display_hotel (s : State) (hotel_id : String) : Except Err Hotel :=
  match s.hotels.find? (fun h => h.hotel_id == hotel_id) with
  | some h => .ok h
  | none => .error (.notFound ("Hotel not found: " ++ hotel_id))

/-- The hotel produced for the matching element of `modify_hotel`'s loop:
supplied fields replace old values, unset fields are retained
(services.py:115-124). -/
def updHotel (h : Hotel) (name city : Option String) (total_rooms : Option Int) :
    Hotel :=
  ⟨h.hotel_id, name.getD h.name, city.getD h.city,
   total_rooms.getD h.total_rooms⟩

/-- The `for hotel in hotels` loop of `modify_hotel` (services.py:109-125):
builds the updated list and the `found` flag, raising `ValidationError`
at a matching hotel whose effective room count is not positive. -/
def modify_hotel_loop (hotels : List Hotel) (hotel_id : String)
    (name city : Option String) (total_rooms : Option Int) :
    Except Err (List Hotel × Bool) :=
  match hotels with
  | [] => .ok ([], false)
  | h :: rest =>
    if !(h.hotel_id == hotel_id) then
      match modify_hotel_loop rest hotel_id name city total_rooms with
      | .ok (u, f) => .ok (h :: u, f)
      | .error e => .error e
    else if total_rooms.getD h.total_rooms ≤ 0 then
      .error (.validation "total_rooms must be > 0")
    else
      match modify_hotel_loop rest hotel_id name city total_rooms with
      | .ok (u, _) => .ok (updHotel h name city total_rooms :: u, true)
      | .error e => .error e

/-- `HotelSystem.modify_hotel` (services.py:97-131): run the loop, fail
`NotFoundError` when nothing matched, otherwise save and return
`display_hotel` on the new state. -/
def modify_hotel (s : State) (hotel_id : String) (name city : Option String)
    (total_rooms : Option Int) : Except Err Hotel × State :=
  match modify_hotel_loop s.hotels hotel_id name city total_rooms with
  | .error e => (.error e, s)
  | .ok (updated, found) =>
    if !found then (.error (.notFound ("Hotel not found: " ++ hotel_id)), s)
    else
      let s' : State := { s with hotels := updated }
      (display_hotel s' hotel_id, s')

/-- `HotelSystem.create_customer` (services.py:156-162). -/
def create_customer (s : State) (customer : Customer) : Except Err Unit × State :=
  if index_contains s.customers Customer.customer_id customer.customer_id then
    (.error (.validation ("Customer already exists: " ++ customer.customer_id)), s)
  else
    (.ok (), { s with customers := s.customers ++ [customer] })

/-- `HotelSystem.delete_customer` (services.py:164-174). -/
def delete_customer (s : State) (customer_id : String) : Except Err Unit × State :=
  if !(s.customers.any (fun c => c.customer_id == customer_id)) then
    (.error (.notFound ("Customer not found: " ++ customer_id)), s)
  else if s.reservations.any (fun r => r.customer_id == customer_id) then
    (.error (.validation "Cannot delete customer with active reservations"), s)
  else
    (.ok (), { s with customers :=
        s.customers.filter (fun c => !(c.customer_id == customer_id)) })

/-- `HotelSystem.display_customer` (services.py:176-181). -/
def display_customer (s : State) (customer_id : String) : Except Err Customer :=
  match s.customers.find? (fun c => c.customer_id == customer_id) with
  | some c => .ok c
  | none => .error (.notFound ("Customer not found: " ++ customer_id))

/-- The customer produced for a matching element of `modify_customer`'s
loop (services.py:199-205). -/
def updCustomer (c : Customer) (full_name email : Option String) : Customer :=
  ⟨c.customer_id, full_name.getD c.full_name, email.getD c.email⟩

/-- The `for customer in customers` loop of `modify_customer`
(services.py:194-205); no validation is performed, so it cannot fail. -/
def modify_customer_loop (customers : List Customer) (customer_id : String)
    (full_name email : Option String) : List Customer × Bool :=
  match customers with
  | [] => ([], false)
  | c :: rest =>
    let (u, f) := modify_customer_loop rest customer_id full_name email
    if !(c.customer_id == customer_id) then (c :: u, f)
    else (updCustomer c full_name email :: u, true)

/-- `HotelSystem.modify_customer` (services.py:183-211). -/
def modify_customer (s : State) (customer_id : String)
    (full_name email : Option String) : Except Err Customer × State :=
  let (updated, found) := modify_customer_loop s.customers customer_id full_name email
  if !found then (.error (.notFound ("Customer not found: " ++ customer_id)), s)
  else
    let s' : State := { s with customers := updated }
    (display_customer s' customer_id, s')

/-- The generator-sum of services.py:246-251: rooms of reservations on the
hotel whose date ranges overlap the requested half-open range,
`not (check_out <= r.check_in or check_in >= r.check_out)`. -/
def reservedRooms (rs : List Reservation) (hotel_id : String)
    (check_in check_out : Date) : Int :=
  ((rs.filter (fun r => r.hotel_id == hotel_id &&
      !(Date.leb check_out r.check_in || Date.leb r.check_out check_in))).map
    Reservation.rooms).sum

/-- `str(reservation_id or uuid4())` (services.py:257): Python's `or`
falls through to the generated token when the supplied id is `None` or
the empty string. `gen` stands for the `str(uuid4())` token the call
would produce — a fresh 36-character string, never empty. -/
def resolveReservationId (reservation_id : Option String) (gen : String) : String :=
  match reservation_id with
  | some rid => if rid == "" then gen else rid
  | none => gen

/-- `HotelSystem.create_reservation` (services.py:216-266). `gen` is the
`uuid4` token (see `resolveReservationId`). -/
def create_reservation (s : State) (hotel_id customer_id : String)
    (check_in check_out : Date) (rooms : Int)
    (reservation_id : Option String) (gen : String) :
    Except Err Reservation × State :=
  if rooms ≤ 0 then
    (.error (.validation "rooms must be > 0"), s)
  else if Date.leb check_out check_in then
    (.error (.validation "check_out must be after check_in"), s)
  else
    match index_get? s.hotels Hotel.hotel_id hotel_id with
    | none => (.error (.notFound ("Hotel not found: " ++ hotel_id)), s)
    | some hotel =>
      if !(index_contains s.customers Customer.customer_id customer_id) then
        (.error (.notFound ("Customer not found: " ++ customer_id)), s)
      else
        let reserved_rooms := reservedRooms s.reservations hotel_id check_in check_out
        let available := hotel.total_rooms - reserved_rooms
        if available < rooms then
          (.error (.validation "Not enough rooms available"), s)
        else
          let new_reservation : Reservation :=
            ⟨resolveReservationId reservation_id gen, hotel_id, customer_id,
             check_in, check_out, rooms⟩
          (.ok new_reservation,
           { s with reservations := s.reservations ++ [new_reservation] })

/-- `HotelSystem.cancel_reservation` (services.py:268-274). -/
def cancel_reservation (s : State) (reservation_id : String) :
    Except Err Unit × State :=
  if !(s.reservations.any (fun r => r.reservation_id == reservation_id)) then
    (.error (.notFound ("Reservation not found: " ++ reservation_id)), s)
  else
    (.ok (), { s with reservations :=
        s.reservations.filter (fun r => !(r.reservation_id == reservation_id)) })

/-- C9: cancelling an existing reservation succeeds and removes every
reservation with that id, and cancelling again immediately fails
`NotFound`; in general `cancel_reservation` fails `NotFound` exactly when
no reservation carries the id, and a failing cancel leaves the state
unchanged. -/
theorem C9_cancel_then_notFound (s : State) (rid : String) :
    ((s.reservations.any fun r => r.reservation_id == rid) = false →
      cancel_reservation s rid =
        (.error (.notFound ("Reservation not found: " ++ rid)), s)) ∧
    ((s.reservations.any fun r => r.reservation_id == rid) = true →
      (cancel_reservation s rid).1 = .ok () ∧
      (cancel_reservation s rid).2.reservations =
        s.reservations.filter (fun r => !(r.reservation_id == rid)) ∧
      (cancel_reservation s rid).2.hotels = s.hotels ∧
      (cancel_reservation s rid).2.customers = s.customers ∧
      cancel_reservation (cancel_reservation s rid).2 rid =
        (.error (.notFound ("Reservation not found: " ++ rid)),
         (cancel_reservation s rid).2)) ∧
    ((cancel_reservation s rid).1 =
        .error (.notFound ("Reservation not found: " ++ rid)) ↔
      ¬ ∃ r ∈ s.reservations, r.reservation_id = rid) := by
  by_cases h : (s.reservations.any fun r => r.reservation_id == rid) = true
  · refine ⟨by simp [h], fun _ => ?_, ?_⟩
    · have hgone : (((s.reservations.filter
          (fun r => !(r.reservation_id == rid))).any
            (fun r => r.reservation_id == rid)) = false) := by
        simp [List.any_eq_true]
      simp [cancel_reservation, h, hgone]
    · simp only [cancel_reservation, h]
      simp only [List.any_eq_true, beq_iff_eq] at h
      simp [h]
  · have hf : (s.reservations.any fun r => r.reservation_id == rid) = false := by
      simpa using h
    refine ⟨fun _ => by simp [cancel_reservation, hf], fun hc => by simp [hf] at hc, ?_⟩
    simp only [cancel_reservation, hf]
    simp only [List.any_eq_false, beq_iff_eq] at hf
    simpa using hf

/-- Witness for C9 on a one-reservation state. -/
theorem C9_cancel_then_notFound_witness :
    (cancel_reservation
      ⟨[], [], [⟨"R1", "H1", "C1", ⟨2026, 1, 1⟩, ⟨2026, 1, 2⟩, 1⟩]⟩ "R1").1 =
      .ok () :=
  ((C9_cancel_then_notFound
      ⟨[], [], [⟨"R1", "H1", "C1", ⟨2026, 1, 1⟩, ⟨2026, 1, 2⟩, 1⟩]⟩ "R1").2.1
    (by decide)).1

/-- C7: deleting a hotel or customer that some reservation references
fails with the referential-conflict `ValidationError` and changes
nothing; deleting an existing, unreferenced one succeeds and removes
exactly the entities bearing that id, leaving the other collections
untouched. -/
theorem C7_delete_referential_integrity (s : State) (idv : String) :
    ((s.hotels.any fun h => h.hotel_id == idv) = true →
      (s.reservations.any fun r => r.hotel_id == idv) = true →
      delete_hotel s idv =
        (.error (.validation "Cannot delete hotel with active reservations"), s)) ∧
    ((s.hotels.any fun h => h.hotel_id == idv) = true →
      (s.reservations.any fun r => r.hotel_id == idv) = false →
      (delete_hotel s idv).1 = .ok () ∧
      (delete_hotel s idv).2.customers = s.customers ∧
      (delete_hotel s idv).2.reservations = s.reservations ∧
      ∀ h : Hotel, h ∈ (delete_hotel s idv).2.hotels ↔
        h ∈ s.hotels ∧ h.hotel_id ≠ idv) ∧
    ((s.customers.any fun c => c.customer_id == idv) = true →
      (s.reservations.any fun r => r.customer_id == idv) = true →
      delete_customer s idv =
        (.error (.validation "Cannot delete customer with active reservations"), s)) ∧
    ((s.customers.any fun c => c.customer_id == idv) = true →
      (s.reservations.any fun r => r.customer_id == idv) = false →
      (delete_customer s idv).1 = .ok () ∧
      (delete_customer s idv).2.hotels = s.hotels ∧
      (delete_customer s idv).2.reservations = s.reservations ∧
      ∀ c : Customer, c ∈ (delete_customer s idv).2.customers ↔
        c ∈ s.customers ∧ c.customer_id ≠ idv) := by
  refine ⟨fun h1 h2 => by simp [delete_hotel, h1, h2],
          fun h1 h2 => ?_,
          fun h1 h2 => by simp [delete_customer, h1, h2],
          fun h1 h2 => ?_⟩
  · refine ⟨by simp [delete_hotel, h1, h2], by simp [delete_hotel, h1, h2],
      by simp [delete_hotel, h1, h2], fun h => ?_⟩
    simp [delete_hotel, h1, h2, List.mem_filter]
  · refine ⟨by simp [delete_customer, h1, h2], by simp [delete_customer, h1, h2],
      by simp [delete_customer, h1, h2], fun c => ?_⟩
    simp [delete_customer, h1, h2, List.mem_filter]

/-- Witness for C7: deleting a referenced hotel fails. -/
theorem C7_delete_referential_integrity_witness :
    delete_hotel
      ⟨[⟨"H1", "N", "C", 5⟩], [],
       [⟨"R1", "H1", "C1", ⟨2026, 1, 1⟩, ⟨2026, 1, 2⟩, 1⟩]⟩ "H1" =
      (.error (.validation "Cannot delete hotel with active reservations"),
       ⟨[⟨"H1", "N", "C", 5⟩], [],
        [⟨"R1", "H1", "C1", ⟨2026, 1, 1⟩, ⟨2026, 1, 2⟩, 1⟩]⟩) :=
  (C7_delete_referential_integrity
      ⟨[⟨"H1", "N", "C", 5⟩], [],
       [⟨"R1", "H1", "C1", ⟨2026, 1, 1⟩, ⟨2026, 1, 2⟩, 1⟩]⟩ "H1").1
    (by decide) (by decide)

/-- C10: a caller-supplied `reservation_id` equal to the empty string is
not honoured — Python's `reservation_id or uuid4()` is falsy on `""`, so
the fresh token is used instead, and the result never carries `""` as its
id; a non-empty supplied id is honoured verbatim. -/
theorem C10_empty_id_generates_token (s : State) (hid cid : String)
    (ci co : Date) (rooms : Int) (gen : String) (r : Reservation) (s' : State) :
    (gen ≠ "" →
      create_reservation s hid cid ci co rooms (some "") gen = (.ok r, s') →
      r.reservation_id = gen ∧ r.reservation_id ≠ "") ∧
    (∀ rid : String, rid ≠ "" →
      create_reservation s hid cid ci co rooms (some rid) gen = (.ok r, s') →
      r.reservation_id = rid) := by
  constructor
  · intro hgen heq
    unfold create_reservation at heq
    repeat' split at heq
    all_goals try (rw [ite_eq_iff] at heq; rcases heq with ⟨hc, heq⟩ | ⟨hc, heq⟩)
    all_goals try simp_all
    obtain ⟨h1, h2⟩ := heq
    subst h1
    exact ⟨rfl, hgen⟩
  · intro rid hrid heq
    unfold create_reservation at heq
    repeat' split at heq
    all_goals try (rw [ite_eq_iff] at heq; rcases heq with ⟨hc, heq⟩ | ⟨hc, heq⟩)
    all_goals try simp_all
    all_goals
      (obtain ⟨h1, h2⟩ := heq; subst h1; simp [resolveReservationId, hrid])

/-- Witness for C10: a concrete successful creation with supplied id `""`
carries the generated token. -/
theorem C10_empty_id_generates_token_witness :
    (⟨"tok-1234", "H1", "C1", ⟨2026, 1, 1⟩, ⟨2026, 1, 2⟩, 1⟩ :
        Reservation).reservation_id = "tok-1234" ∧
    (⟨"tok-1234", "H1", "C1", ⟨2026, 1, 1⟩, ⟨2026, 1, 2⟩, 1⟩ :
        Reservation).reservation_id ≠ "" :=
  (C10_empty_id_generates_token
      ⟨[⟨"H1", "N", "C", 5⟩], [⟨"C1", "F", "E"⟩], []⟩ "H1" "C1"
      ⟨2026, 1, 1⟩ ⟨2026, 1, 2⟩ 1 "tok-1234"
      ⟨"tok-1234", "H1", "C1", ⟨2026, 1, 1⟩, ⟨2026, 1, 2⟩, 1⟩
      ⟨[⟨"H1", "N", "C", 5⟩], [⟨"C1", "F", "E"⟩],
       [⟨"tok-1234", "H1", "C1", ⟨2026, 1, 1⟩, ⟨2026, 1, 2⟩, 1⟩]⟩).1
    (by decide) rfl

/-- C2 fails on the code: with an unresolvable hotel id AND `rooms <= 0`,
`create_reservation` raises `ValidationError` ("rooms must be > 0"), not
`NotFoundError` — the input validation at services.py:226-229 runs before
the collections are even loaded. Concretely, on the empty state (hotel
"H1" absent) with `rooms = 0`. -/
theorem C2_counterexample :
    (create_reservation ⟨[], [], []⟩ "H1" "C1" ⟨2026, 1, 1⟩ ⟨2026, 1, 2⟩ 0
        none "tok").1 = .error (.validation "rooms must be > 0") ∧
    ∀ msg : String,
      (create_reservation ⟨[], [], []⟩ "H1" "C1" ⟨2026, 1, 1⟩ ⟨2026, 1, 2⟩ 0
          none "tok").1 ≠ .error (.notFound msg) := by
  refine ⟨rfl, fun msg h => ?_⟩
  rw [show (create_reservation ⟨[], [], []⟩ "H1" "C1" ⟨2026, 1, 1⟩
      ⟨2026, 1, 2⟩ 0 none "tok").1 =
      .error (.validation "rooms must be > 0") from rfl] at h
  simp at h

/-- C2 amended: `create_reservation` validates `rooms > 0` and
`check_out > check_in` BEFORE resolving the hotel and customer ids; only
when both validations pass and the hotel id does not resolve does it fail
`NotFound`. In particular an input with an absent hotel id and
`rooms <= 0` fails `InvalidInput` (`ValidationError`), not `NotFound`. -/
theorem C2_validation_precedes_resolution (s : State) (hid cid : String)
    (ci co : Date) (rooms : Int) (rid : Option String) (gen : String) :
    (rooms ≤ 0 →
      create_reservation s hid cid ci co rooms rid gen =
        (.error (.validation "rooms must be > 0"), s)) ∧
    (0 < rooms → Date.leb co ci = true →
      create_reservation s hid cid ci co rooms rid gen =
        (.error (.validation "check_out must be after check_in"), s)) ∧
    (0 < rooms → Date.leb co ci = false →
      index_get? s.hotels Hotel.hotel_id hid = none →
      create_reservation s hid cid ci co rooms rid gen =
        (.error (.notFound ("Hotel not found: " ++ hid)), s)) := by
  refine ⟨fun h => by simp [create_reservation, h], fun h1 h2 => ?_, fun h1 h2 h3 => ?_⟩
  · have h0 : ¬ rooms ≤ 0 := by omega
    simp [create_reservation, h0, h2]
  · have h0 : ¬ rooms ≤ 0 := by omega
    simp [create_reservation, h0, h2, h3]

/-- Witness for C2's amended statement: `rooms = 0` on the empty state. -/
theorem C2_validation_precedes_resolution_witness :
    create_reservation ⟨[], [], []⟩ "H1" "C1" ⟨2026, 1, 1⟩ ⟨2026, 1, 2⟩ 0
        none "tok" =
      (.error (.validation "rooms must be > 0"), ⟨[], [], []⟩) :=
  (C2_validation_precedes_resolution ⟨[], [], []⟩ "H1" "C1"
      ⟨2026, 1, 1⟩ ⟨2026, 1, 2⟩ 0 none "tok").1 (by decide)

/-- C3 fails on the code for reservations: `create_reservation` never
checks a caller-supplied `reservation_id` against the existing
collection. In a state whose reservations already contain id "R1",
creating with `reservation_id="R1"` succeeds (no `AlreadyExists`) and
appends a second reservation with the same id. -/
theorem C3_counterexample :
    ((⟨"R1", "H1", "C1", ⟨2026, 1, 1⟩, ⟨2026, 1, 2⟩, 1⟩ : Reservation) ∈
      (⟨[⟨"H1", "N", "C", 10⟩], [⟨"C1", "F", "E"⟩],
        [⟨"R1", "H1", "C1", ⟨2026, 1, 1⟩, ⟨2026, 1, 2⟩, 1⟩]⟩ : State).reservations) ∧
    (create_reservation
        ⟨[⟨"H1", "N", "C", 10⟩], [⟨"C1", "F", "E"⟩],
         [⟨"R1", "H1", "C1", ⟨2026, 1, 1⟩, ⟨2026, 1, 2⟩, 1⟩]⟩
        "H1" "C1" ⟨2026, 2, 1⟩ ⟨2026, 2, 2⟩ 1 (some "R1") "tok").1 =
      .ok ⟨"R1", "H1", "C1", ⟨2026, 2, 1⟩, ⟨2026, 2, 2⟩, 1⟩ :=
  ⟨by decide, rfl⟩

/-- C3 amended: Hotel and Customer creation enforce id uniqueness —
creating with an id already in the collection fails with the
already-exists `ValidationError` and leaves the state unchanged — but
`create_reservation` performs no such check on a caller-supplied
`reservation_id`: whenever the other preconditions hold it succeeds and
appends, even though a reservation with that id already exists. -/
theorem C3_uniqueness_hotels_customers_only (s : State) :
    (∀ h : Hotel, index_contains s.hotels Hotel.hotel_id h.hotel_id = true →
      create_hotel s h =
        (.error (.validation ("Hotel already exists: " ++ h.hotel_id)), s)) ∧
    (∀ c : Customer,
      index_contains s.customers Customer.customer_id c.customer_id = true →
      create_customer s c =
        (.error (.validation ("Customer already exists: " ++ c.customer_id)), s)) ∧
    (∀ (hid cid : String) (ci co : Date) (rooms : Int) (rid gen : String)
        (hotel : Hotel),
      index_get? s.hotels Hotel.hotel_id hid = some hotel →
      index_contains s.customers Customer.customer_id cid = true →
      0 < rooms → Date.leb co ci = false →
      reservedRooms s.reservations hid ci co + rooms ≤ hotel.total_rooms →
      (∃ r ∈ s.reservations, r.reservation_id = rid) →
      rid ≠ "" →
      (create_reservation s hid cid ci co rooms (some rid) gen).1 =
        .ok ⟨rid, hid, cid, ci, co, rooms⟩) := by
  refine ⟨fun h hmem => by simp [create_hotel, hmem],
          fun c hmem => by simp [create_customer, hmem],
          fun hid cid ci co rooms rid gen hotel hget hcust hr hdate hcap _ hne => ?_⟩
  have h0 : ¬ rooms ≤ 0 := by omega
  have hlt : ¬ hotel.total_rooms - reservedRooms s.reservations hid ci co < rooms := by
    omega
  simp [create_reservation, h0, hdate, hget, hcust, hlt, resolveReservationId, hne]

/-- Witness for C3's amended statement: duplicate hotel id fails, and a
duplicate reservation id is appended without complaint. -/
theorem C3_uniqueness_hotels_customers_only_witness :
    create_hotel
      ⟨[⟨"H1", "N", "C", 10⟩], [⟨"C1", "F", "E"⟩],
       [⟨"R1", "H1", "C1", ⟨2026, 1, 1⟩, ⟨2026, 1, 2⟩, 1⟩]⟩
      ⟨"H1", "Other", "Town", 3⟩ =
      (.error (.validation ("Hotel already exists: " ++ "H1")),
       ⟨[⟨"H1", "N", "C", 10⟩], [⟨"C1", "F", "E"⟩],
        [⟨"R1", "H1", "C1", ⟨2026, 1, 1⟩, ⟨2026, 1, 2⟩, 1⟩]⟩) :=
  (C3_uniqueness_hotels_customers_only
      ⟨[⟨"H1", "N", "C", 10⟩], [⟨"C1", "F", "E"⟩],
       [⟨"R1", "H1", "C1", ⟨2026, 1, 1⟩, ⟨2026, 1, 2⟩, 1⟩]⟩).1
    ⟨"H1", "Other", "Town", 3⟩ (by decide)

/-- Room-sum over the overlap condition exactly as the claim words it:
ranges `[a,b) = [check_in, check_out)` requested and `[c,d)` existing
overlap iff `a < d` and `c < b`. -/
def specOverlapRooms (rs : List Reservation) (hotel_id : String)
    (check_in check_out : Date) : Int :=
  ((rs.filter (fun r => r.hotel_id == hotel_id &&
      Date.ltb check_in r.check_out && Date.ltb r.check_in check_out)).map
    Reservation.rooms).sum

/-- The code's overlap test `not (check_out <= r.check_in or
check_in >= r.check_out)` coincides with the claim's `a < d and c < b`. -/
theorem overlap_cond_eq (check_in check_out : Date) (r : Reservation) :
    (!(Date.leb check_out r.check_in || Date.leb r.check_out check_in)) =
      (Date.ltb check_in r.check_out && Date.ltb r.check_in check_out) := by
  rw [Bool.eq_iff_iff]
  simp only [Date.leb, Date.ltb, Bool.not_eq_true', Bool.or_eq_false_iff,
    decide_eq_false_iff_not, Bool.and_eq_true, decide_eq_true_eq]
  rw [Date.not_le_iff, Date.not_le_iff]
  tauto

/-- The two room sums agree on every reservation list. -/
theorem reservedRooms_eq_specOverlapRooms (rs : List Reservation)
    (hotel_id : String) (check_in check_out : Date) :
    reservedRooms rs hotel_id check_in check_out =
      specOverlapRooms rs hotel_id check_in check_out := by
  unfold reservedRooms specOverlapRooms
  congr 2
  apply List.filter_congr
  intro r _
  rw [overlap_cond_eq, Bool.and_assoc]

/-- C4: with the hotel and customer resolved and the input valid,
creation fails with the capacity `ValidationError` exactly when the sum
of rooms over existing reservations on the hotel whose half-open ranges
overlap the request (overlap of `[a,b)` and `[c,d)` iff `a < d` and
`c < b`; exact adjacency does not overlap) plus the requested rooms
strictly exceeds `total_rooms`; otherwise the new reservation is appended
and returned. -/
theorem C4_capacity_check_iff (s : State) (hid cid : String) (ci co : Date)
    (rooms : Int) (rid : Option String) (gen : String) (hotel : Hotel)
    (hget : index_get? s.hotels Hotel.hotel_id hid = some hotel)
    (hcust : index_contains s.customers Customer.customer_id cid = true)
    (hr : 0 < rooms) (hdate : Date.ltb ci co = true) :
    ((create_reservation s hid cid ci co rooms rid gen).1 =
        .error (.validation "Not enough rooms available") ↔
      hotel.total_rooms < specOverlapRooms s.reservations hid ci co + rooms) ∧
    (specOverlapRooms s.reservations hid ci co + rooms ≤ hotel.total_rooms →
      create_reservation s hid cid ci co rooms rid gen =
        (.ok ⟨resolveReservationId rid gen, hid, cid, ci, co, rooms⟩,
         { s with reservations := s.reservations ++
             [⟨resolveReservationId rid gen, hid, cid, ci, co, rooms⟩] })) := by
  have h0 : ¬ rooms ≤ 0 := by omega
  have hnle : Date.leb co ci = false := by
    have h := (Date.not_le_iff co ci).mpr ((Date.ltb_iff ci co).mp hdate)
    simp [Date.leb, h]
  have hsum := reservedRooms_eq_specOverlapRooms s.reservations hid ci co
  by_cases hcap : hotel.total_rooms - reservedRooms s.reservations hid ci co < rooms
  · constructor
    · simp only [create_reservation, h0, hnle, hget, hcust]
      simp [hcap]
      omega
    · intro hle
      omega
  · constructor
    · simp only [create_reservation, h0, hnle, hget, hcust]
      simp [hcap]
      omega
    · intro _
      simp only [create_reservation, h0, hnle, hget, hcust]
      simp [hcap]

/-- Witness for C4, following the spec's own test vector: a 10-room hotel
with no reservations rejects an 11-room request. -/
theorem C4_capacity_check_iff_witness :
    (create_reservation ⟨[⟨"H1", "N", "C", 10⟩], [⟨"C1", "F", "E"⟩], []⟩
        "H1" "C1" ⟨2026, 1, 1⟩ ⟨2026, 1, 5⟩ 11 none "tok").1 =
      .error (.validation "Not enough rooms available") :=
  ((C4_capacity_check_iff ⟨[⟨"H1", "N", "C", 10⟩], [⟨"C1", "F", "E"⟩], []⟩
      "H1" "C1" ⟨2026, 1, 1⟩ ⟨2026, 1, 5⟩ 11 none "tok" ⟨"H1", "N", "C", 10⟩
      (by decide) (by decide) (by decide) (by decide)).1).mpr (by decide)

/-- When every hotel matching the id keeps a positive effective room
count, the modify loop succeeds: it maps the update over the matching
hotels and reports whether any matched. -/
theorem modify_hotel_loop_ok (hotels : List Hotel) (hid : String)
    (n c : Option String) (t : Option Int)
    (hpos : ∀ h ∈ hotels, h.hotel_id = hid → 0 < t.getD h.total_rooms) :
    modify_hotel_loop hotels hid n c t =
      .ok (hotels.map (fun h => if h.hotel_id == hid then updHotel h n c t else h),
           hotels.any (fun h => h.hotel_id == hid)) := by
  induction hotels with
  | nil => rfl
  | cons h rest ih =>
    have ih' := ih (fun x hx hxid => hpos x (List.mem_cons_of_mem h hx) hxid)
    by_cases hm : h.hotel_id = hid
    · have hpos' : ¬ t.getD h.total_rooms ≤ 0 := by
        have := hpos h (List.mem_cons_self h rest) hm
        omega
      simp [modify_hotel_loop, hm, hpos', ih']
    · simp [modify_hotel_loop, hm, ih']

/-- If some hotel matches the id with a nonpositive effective room count,
the modify loop raises the `ValidationError`. -/
theorem modify_hotel_loop_error (hotels : List Hotel) (hid : String)
    (n c : Option String) (t : Option Int) (h₀ : Hotel)
    (hmem : h₀ ∈ hotels) (hid₀ : h₀.hotel_id = hid)
    (hbad : t.getD h₀.total_rooms ≤ 0) :
    modify_hotel_loop hotels hid n c t =
      .error (.validation "total_rooms must be > 0") := by
  induction hotels with
  | nil => simp at hmem
  | cons h rest ih =>
    rcases List.mem_cons.mp hmem with heq | hrest
    · subst heq
      simp [modify_hotel_loop, hid₀, hbad]
    · by_cases hm : h.hotel_id = hid
      · by_cases hb : t.getD h.total_rooms ≤ 0
        · simp [modify_hotel_loop, hm, hb]
        · simp [modify_hotel_loop, hm, hb, ih hrest]
      · simp [modify_hotel_loop, hm, ih hrest]

/-- The customer modify loop maps the update over matching customers and
reports whether any matched. -/
theorem modify_customer_loop_eq (customers : List Customer) (cid : String)
    (fn em : Option String) :
    modify_customer_loop customers cid fn em =
      (customers.map
        (fun c => if c.customer_id == cid then updCustomer c fn em else c),
       customers.any (fun c => c.customer_id == cid)) := by
  induction customers with
  | nil => rfl
  | cons c rest ih =>
    by_cases hm : c.customer_id = cid <;> simp [modify_customer_loop, hm, ih]

/-- `find?` commutes with an id-preserving conditional update: the first
match of the updated list is the update of the first original match. -/
theorem find?_map_ite {α : Type} (p : α → Bool) (u : α → α)
    (hp : ∀ a, p (u a) = p a) (l : List α) (a₀ : α)
    (h : l.find? p = some a₀) :
    (l.map (fun a => if p a then u a else a)).find? p = some (u a₀) := by
  induction l with
  | nil => simp at h
  | cons a rest ih =>
    by_cases hpa : p a = true
    · rw [List.find?_cons_of_pos _ hpa] at h
      injection h with h
      subst h
      simp only [List.map_cons, if_pos hpa]
      rw [List.find?_cons_of_pos _ (by rw [hp]; exact hpa)]
    · rw [List.find?_cons_of_neg _ hpa] at h
      simp only [List.map_cons, if_neg hpa]
      rw [List.find?_cons_of_neg _ hpa]
      exact ih h

/-- C8: `modify_hotel` / `modify_customer` fail `NotFound` when the id is
absent (state unchanged); with the id present they rewrite exactly the
matching entities — supplied fields replace old values, unset fields are
retained — leave every non-matching entity and the other collections
unchanged, re-validate `total_rooms > 0` for hotels (failing
`InvalidInput` with the state unchanged), and return the updated
entity. -/
theorem C8_modify_only_supplied_fields (s : State) (idv : String) :
    ((∀ (n c : Option String) (t : Option Int),
      index_contains s.hotels Hotel.hotel_id idv = false →
      modify_hotel s idv n c t =
        (.error (.notFound ("Hotel not found: " ++ idv)), s)) ∧
    (∀ (n c : Option String) (t : Option Int) (h₀ : Hotel),
      h₀ ∈ s.hotels → h₀.hotel_id = idv → t.getD h₀.total_rooms ≤ 0 →
      modify_hotel s idv n c t =
        (.error (.validation "total_rooms must be > 0"), s)) ∧
    (∀ (n c : Option String) (t : Option Int),
      (∀ h ∈ s.hotels, h.hotel_id = idv → 0 < t.getD h.total_rooms) →
      index_contains s.hotels Hotel.hotel_id idv = true →
      (modify_hotel s idv n c t).2 =
        { s with hotels := (s.hotels.map
            (fun h => if h.hotel_id == idv then updHotel h n c t else h)) } ∧
      ∀ h₀ : Hotel, s.hotels.find? (fun h => h.hotel_id == idv) = some h₀ →
        (modify_hotel s idv n c t).1 = .ok (updHotel h₀ n c t))) ∧
    ((∀ fn em : Option String,
      index_contains s.customers Customer.customer_id idv = false →
      modify_customer s idv fn em =
        (.error (.notFound ("Customer not found: " ++ idv)), s)) ∧
    (∀ fn em : Option String,
      index_contains s.customers Customer.customer_id idv = true →
      (modify_customer s idv fn em).2 =
        { s with customers := (s.customers.map
            (fun c => if c.customer_id == idv then updCustomer c fn em else c)) } ∧
      ∀ c₀ : Customer,
        s.customers.find? (fun c => c.customer_id == idv) = some c₀ →
        (modify_customer s idv fn em).1 = .ok (updCustomer c₀ fn em))) := by
  refine ⟨⟨fun n c t habs => ?_, fun n c t h₀ hmem hid₀ hbad => ?_,
           fun n c t hpos hcont => ?_⟩,
          ⟨fun fn em habs => ?_, fun fn em hcont => ?_⟩⟩
  · have hpos : ∀ h ∈ s.hotels, h.hotel_id = idv → 0 < t.getD h.total_rooms := by
      intro h hh hid
      exfalso
      have : index_contains s.hotels Hotel.hotel_id idv = true := by
        simp [index_contains, List.any_eq_true]
        exact ⟨h, hh, hid⟩
      rw [habs] at this
      exact Bool.false_ne_true this
    have hany : (s.hotels.any fun h => h.hotel_id == idv) = false := habs
    simp [modify_hotel, modify_hotel_loop_ok s.hotels idv n c t hpos, hany]
  · simp [modify_hotel, modify_hotel_loop_error s.hotels idv n c t h₀ hmem hid₀ hbad]
  · have hany : (s.hotels.any fun h => h.hotel_id == idv) = true := hcont
    refine ⟨by simp [modify_hotel, modify_hotel_loop_ok s.hotels idv n c t hpos, hany],
            fun h₀ hfind => ?_⟩
    simp only [modify_hotel, modify_hotel_loop_ok s.hotels idv n c t hpos, hany,
      Bool.not_true, Bool.false_eq_true, if_false, display_hotel]
    rw [find?_map_ite (fun h => h.hotel_id == idv) (fun h => updHotel h n c t)
      (fun a => rfl) s.hotels h₀ hfind]
  · have hany : (s.customers.any fun c => c.customer_id == idv) = false := habs
    simp [modify_customer, modify_customer_loop_eq, hany]
  · have hany : (s.customers.any fun c => c.customer_id == idv) = true := hcont
    refine ⟨by simp [modify_customer, modify_customer_loop_eq, hany],
            fun c₀ hfind => ?_⟩
    simp only [modify_customer, modify_customer_loop_eq, hany,
      Bool.not_true, Bool.false_eq_true, if_false, display_customer]
    rw [find?_map_ite (fun c => c.customer_id == idv)
      (fun c => updCustomer c fn em) (fun a => rfl) s.customers c₀ hfind]

/-- Witness for C8: modifying only the city of an existing hotel keeps
name and room count and returns the updated entity. -/
theorem C8_modify_only_supplied_fields_witness :
    (modify_hotel ⟨[⟨"H1", "N", "C", 10⟩], [], []⟩ "H1" none (some "Mty")
        none).1 = .ok ⟨"H1", "N", "Mty", 10⟩ :=
  ((C8_modify_only_supplied_fields ⟨[⟨"H1", "N", "C", 10⟩], [], []⟩ "H1").1.2.2
      none (some "Mty") none
      (by decide) (by decide)).2 ⟨"H1", "N", "C", 10⟩ (by decide)

/-! ## Tolerant storage (`storage.py`) -/

/-- What `JsonStore.load_list` finds at its path before the element loop:
no file, an unreadable file, text that is not JSON, or a parsed value. -/
inductive FileState where
  | missing
  | unreadable
  | badJson
  | parsed (data : Json)

/-- The `for idx, entry in enumerate(data)` loop of `load_list`
(storage.py:52-66): a non-object element or a failing `item_loader` is
skipped with one diagnostic naming its index; every other element is
still processed. -/
def load_loop {α : Type} (item_loader : Dict → Except DecodeErr α)
    (item_name : String) (idx : Nat) : List Json → List α × List String
  | [] => ([], [])
  | entry :: rest =>
    let acc := load_loop item_loader item_name (idx + 1) rest
    match entry with
    | .obj fields =>
      match item_loader fields with
      | .ok item => (item :: acc.1, acc.2)
      | .error _ =>
        (acc.1, ("ERROR: Invalid " ++ item_name ++ " at index " ++
          toString idx) :: acc.2)
    | _ =>
      (acc.1, ("ERROR: Invalid " ++ item_name ++ " at index " ++
        toString idx ++ ": expected object") :: acc.2)

/-- `JsonStore.load_list` (storage.py:21-66): entity list plus the
diagnostics printed along the way. The path and exception texts that
appear inside the messages are abstracted away; the branch structure is
the source's. -/
def load_list {α : Type} (file : FileState)
    (item_loader : Dict → Except DecodeErr α) (item_name : String) :
    List α × List String :=
  match file with
  | .missing => ([], [])
  | .unreadable => ([], ["ERROR: Cannot read"])
  | .badJson => ([], ["ERROR: Invalid JSON"])
  | .parsed (.arr entries) => load_loop item_loader item_name 0 entries
  | .parsed _ => ([], ["ERROR: Expected a JSON list"])

/-- Element-level decode as an `Option`: an object that the loader
accepts, `none` otherwise. -/
def decodeOk {α : Type} (item_loader : Dict → Except DecodeErr α) :
    Json → Option α
  | .obj fields => (item_loader fields).toOption
  | _ => none

/-- C6: `load_list` is total and element-tolerant — a missing file yields
the empty list with no diagnostic; over any well-formed list document the
loop returns exactly the decodable elements, in order, and one diagnostic
per failing element; concretely, a document with one well-formed hotel
record and one record missing a required field loads exactly the one
valid hotel and reports exactly one diagnostic. -/
theorem C6_tolerant_load :
    (∀ (α : Type) (item_loader : Dict → Except DecodeErr α) (nm : String),
      load_list .missing item_loader nm = ([], []) ∧
      ∀ (entries : List Json) (idx : Nat),
        (load_loop item_loader nm idx entries).1 =
          entries.filterMap (decodeOk item_loader) ∧
        (load_loop item_loader nm idx entries).2.length =
          entries.countP (fun e => (decodeOk item_loader e).isNone)) ∧
    ((load_list (.parsed (.arr
        [.obj [("hotel_id", .str "H1"), ("name", .str "N"),
               ("city", .str "C"), ("total_rooms", .num 10)],
         .obj [("hotel_id", .str "H2")]]))
        Hotel.from_dict "hotel").1 = [⟨"H1", "N", "C", 10⟩] ∧
     (load_list (.parsed (.arr
        [.obj [("hotel_id", .str "H1"), ("name", .str "N"),
               ("city", .str "C"), ("total_rooms", .num 10)],
         .obj [("hotel_id", .str "H2")]]))
        Hotel.from_dict "hotel").2.length = 1) := by
  refine ⟨fun α item_loader nm => ⟨rfl, fun entries => ?_⟩, by constructor <;> rfl⟩
  induction entries with
  | nil => intro idx; exact ⟨rfl, rfl⟩
  | cons entry rest ih =>
    intro idx
    obtain ⟨ih1, ih2⟩ := ih (idx + 1)
    cases entry with
    | obj fields =>
      cases hload : item_loader fields with
      | ok item =>
        simp [load_loop, decodeOk, hload, List.filterMap_cons, List.countP_cons,
          ih1, ih2, Except.toOption]
      | error e =>
        simp [load_loop, decodeOk, hload, List.filterMap_cons, List.countP_cons,
          ih1, ih2, Except.toOption]
    | null => simp [load_loop, decodeOk, List.countP_cons, ih1, ih2]
    | bool b => simp [load_loop, decodeOk, List.countP_cons, ih1, ih2]
    | num n => simp [load_loop, decodeOk, List.countP_cons, ih1, ih2]
    | str s => simp [load_loop, decodeOk, List.countP_cons, ih1, ih2]
    | arr xs => simp [load_loop, decodeOk, List.countP_cons, ih1, ih2]

/-! ## Reachable states and the capacity invariant -/

/-- Rooms committed on `hotel_id` on the single day `d`: the sum of
`rooms` over reservations active on `d` (`check_in <= d < check_out`,
i.e. overlap with the unit range `[d, d+1)`). -/
def activeRooms (rs : List Reservation) (hotel_id : String) (d : Date) : Int :=
  ((rs.filter (fun r => r.hotel_id == hotel_id &&
      Date.leb r.check_in d && Date.ltb d r.check_out)).map
    Reservation.rooms).sum

/-- A pointwise-weaker filter yields a smaller room sum, given
nonnegative room counts. -/
theorem sum_rooms_filter_mono (rs : List Reservation) (p q : Reservation → Bool)
    (himp : ∀ r, p r = true → q r = true)
    (hpos : ∀ r ∈ rs, 0 ≤ r.rooms) :
    ((rs.filter p).map Reservation.rooms).sum ≤
      ((rs.filter q).map Reservation.rooms).sum := by
  apply List.Sublist.sum_le_sum
    (List.Sublist.map _ (List.monotone_filter_right rs himp))
  intro a ha
  obtain ⟨r, hr, rfl⟩ := List.mem_map.mp ha
  exact hpos r (List.mem_filter.mp hr).1

/-- Any day inside the requested range contributes at most the range's
overlap sum: a reservation active on `d ∈ [ci, co)` overlaps `[ci, co)`. -/
theorem activeRooms_le_reservedRooms (rs : List Reservation) (hid : String)
    (ci co d : Date) (hd1 : Date.Le ci d) (hd2 : Date.Lt d co)
    (hpos : ∀ r ∈ rs, 0 ≤ r.rooms) :
    activeRooms rs hid d ≤ reservedRooms rs hid ci co := by
  unfold activeRooms reservedRooms
  apply sum_rooms_filter_mono _ _ _ _ hpos
  intro r hp
  simp only [Bool.and_eq_true, Date.leb, Date.ltb, decide_eq_true_eq] at hp
  obtain ⟨⟨hidm, hle⟩, hlt⟩ := hp
  simp only [Bool.and_eq_true, Bool.not_eq_true', Bool.or_eq_false_iff,
    Date.leb, decide_eq_false_iff_not]
  refine ⟨hidm, ?_, ?_⟩
  · intro hco
    exact Date.lt_irrefl d (Date.lt_le_trans (Date.lt_le_trans hd2 hco) hle)
  · intro hrco
    exact Date.lt_irrefl d (Date.lt_le_trans (Date.lt_le_trans hlt hrco) hd1)

/-- Appending one reservation adds its rooms exactly on the days it is
active on the hotel. -/
theorem activeRooms_append (rs : List Reservation) (x : Reservation)
    (hid : String) (d : Date) :
    activeRooms (rs ++ [x]) hid d = activeRooms rs hid d +
      (if x.hotel_id == hid && Date.leb x.check_in d && Date.ltb d x.check_out
       then x.rooms else 0) := by
  unfold activeRooms
  rw [List.filter_append]
  by_cases hx : (x.hotel_id == hid && Date.leb x.check_in d &&
      Date.ltb d x.check_out) = true
  · simp [hx]
  · simp [hx]

/-- A hotel no reservation references has zero committed rooms. -/
theorem activeRooms_eq_zero (rs : List Reservation) (hid : String) (d : Date)
    (hnone : ∀ r ∈ rs, r.hotel_id ≠ hid) :
    activeRooms rs hid d = 0 := by
  unfold activeRooms
  have hf : rs.filter (fun r => r.hotel_id == hid &&
      Date.leb r.check_in d && Date.ltb d r.check_out) = [] := by
    rw [List.filter_eq_nil_iff]
    intro r hr
    simp [hnone r hr]
  rw [hf]
  rfl

/-- Removing reservations can only lower the committed-room sum. -/
theorem activeRooms_filter_le (rs : List Reservation) (q : Reservation → Bool)
    (hid : String) (d : Date) (hpos : ∀ r ∈ rs, 0 ≤ r.rooms) :
    activeRooms (rs.filter q) hid d ≤ activeRooms rs hid d := by
  unfold activeRooms
  rw [List.filter_filter]
  apply sum_rooms_filter_mono _ _ _ _ hpos
  intro r hr
  exact (Bool.and_eq_true _ _ |>.mp hr).1

/-- A successful dict lookup returns a member bearing the key. -/
theorem index_get?_some {α : Type} (items : List α) (get_id : α → String)
    (k : String) (v : α) (h : index_get? items get_id k = some v) :
    v ∈ items ∧ get_id v = k := by
  unfold index_get? at h
  have hmem := List.mem_of_mem_getLast? h
  have := List.mem_filter.mp hmem
  exact ⟨this.1, by simpa using this.2⟩

/-- The state invariant maintained by the service operations: hotel ids
are unique, every reservation has positive rooms and references an
existing hotel, and on every single day each hotel's committed rooms stay
within `total_rooms`. -/
def Inv (s : State) : Prop :=
  (s.hotels.map Hotel.hotel_id).Nodup ∧
  (∀ r ∈ s.reservations, 0 < r.rooms ∧
    ∃ h ∈ s.hotels, h.hotel_id = r.hotel_id) ∧
  (∀ h ∈ s.hotels, ∀ d : Date,
    activeRooms s.reservations h.hotel_id d ≤ h.total_rooms)

/-- States reachable from empty collections through service operations
(failed operations leave the state unchanged, so each step covers both
outcomes). The `modify_hotel` step carries the side condition that a
supplied `total_rooms` does not shrink any matching hotel — without it
the capacity invariant is false, see the C1 analysis. -/
inductive Reach : State → Prop where
  | init : Reach ⟨[], [], []⟩
  | stepCreateHotel {s : State} (h : Hotel) :
      Reach s → Reach (create_hotel s h).2
  | stepDeleteHotel {s : State} (hid : String) :
      Reach s → Reach (delete_hotel s hid).2
  | stepModifyHotel {s : State} (hid : String) (n c : Option String)
      (t : Option Int)
      (hmono : ∀ x : Int, t = some x → ∀ h ∈ s.hotels,
        h.hotel_id = hid → h.total_rooms ≤ x) :
      Reach s → Reach (modify_hotel s hid n c t).2
  | stepCreateCustomer {s : State} (c : Customer) :
      Reach s → Reach (create_customer s c).2
  | stepDeleteCustomer {s : State} (cid : String) :
      Reach s → Reach (delete_customer s cid).2
  | stepModifyCustomer {s : State} (cid : String) (fn em : Option String) :
      Reach s → Reach (modify_customer s cid fn em).2
  | stepCreateReservation {s : State} (hid cid : String) (ci co : Date)
      (rooms : Int) (rid : Option String) (gen : String) :
      Reach s → Reach (create_reservation s hid cid ci co rooms rid gen).2
  | stepCancelReservation {s : State} (rid : String) :
      Reach s → Reach (cancel_reservation s rid).2

/-- The invariant only mentions hotels and reservations, so operations
touching only customers preserve it. -/
theorem Inv_of_eq_parts (s s' : State) (hh : s'.hotels = s.hotels)
    (hr : s'.reservations = s.reservations) (hI : Inv s) : Inv s' := by
  obtain ⟨h1, h2, h3⟩ := hI
  refine ⟨by rw [hh]; exact h1, ?_, ?_⟩
  · rw [hh, hr]; exact h2
  · rw [hh, hr]; exact h3

/-- `create_hotel` preserves the invariant. -/
theorem Inv_create_hotel (s : State) (h : Hotel) (hI : Inv s) :
    Inv (create_hotel s h).2 := by
  obtain ⟨hnd, hres, hcap⟩ := hI
  unfold create_hotel
  by_cases hdup : index_contains s.hotels Hotel.hotel_id h.hotel_id = true
  · simpa [hdup] using ⟨hnd, hres, hcap⟩
  by_cases htot : h.total_rooms ≤ 0
  · simpa [hdup, htot] using ⟨hnd, hres, hcap⟩
  have hfresh : ∀ x ∈ s.hotels, x.hotel_id ≠ h.hotel_id := by
    intro x hx heq
    apply hdup
    simp only [index_contains, List.any_eq_true, beq_iff_eq]
    exact ⟨x, hx, heq⟩
  simp only [hdup, htot, Bool.false_eq_true, if_false, if_neg]
  refine ⟨?_, ?_, ?_⟩
  · rw [List.map_append, List.nodup_append]
    refine ⟨hnd, by simp, ?_⟩
    intro a ha hb
    simp only [List.map_cons, List.map_nil, List.mem_singleton] at hb
    obtain ⟨x, hx, rfl⟩ := List.mem_map.mp ha
    exact hfresh x hx hb
  · intro r hr
    refine ⟨(hres r hr).1, ?_⟩
    obtain ⟨h₀, hh₀, hid₀⟩ := (hres r hr).2
    exact ⟨h₀, List.mem_append_left _ hh₀, hid₀⟩
  · intro h' hh' d
    rcases List.mem_append.mp hh' with hold | hnew
    · exact hcap h' hold d
    · simp only [List.mem_singleton] at hnew
      subst hnew
      have hzero : activeRooms s.reservations h'.hotel_id d = 0 := by
        apply activeRooms_eq_zero
        intro r hr heq
        obtain ⟨h₀, hh₀, hid₀⟩ := (hres r hr).2
        exact hfresh h₀ hh₀ (hid₀.trans heq)
      rw [hzero]
      omega

/-- `delete_hotel` preserves the invariant. -/
theorem Inv_delete_hotel (s : State) (hid : String) (hI : Inv s) :
    Inv (delete_hotel s hid).2 := by
  obtain ⟨hnd, hres, hcap⟩ := hI
  unfold delete_hotel
  by_cases habs : (s.hotels.any fun h => h.hotel_id == hid) = true
  case neg => simpa [habs] using ⟨hnd, hres, hcap⟩
  by_cases href : (s.reservations.any fun r => r.hotel_id == hid) = true
  · simpa [habs, href] using ⟨hnd, hres, hcap⟩
  have hnoref : ∀ r ∈ s.reservations, r.hotel_id ≠ hid := by
    intro r hr heq
    apply href
    simp only [List.any_eq_true, beq_iff_eq]
    exact ⟨r, hr, heq⟩
  simp only [habs, href, Bool.not_true, Bool.false_eq_true, if_false, if_neg]
  refine ⟨?_, ?_, ?_⟩
  · exact List.Nodup.sublist
      (List.Sublist.map _ (List.filter_sublist s.hotels)) hnd
  · intro r hr
    refine ⟨(hres r hr).1, ?_⟩
    obtain ⟨h₀, hh₀, hid₀⟩ := (hres r hr).2
    refine ⟨h₀, List.mem_filter.mpr ⟨hh₀, ?_⟩, hid₀⟩
    simp only [Bool.not_eq_true', beq_eq_false_iff_ne, ne_eq]
    rw [hid₀]
    exact hnoref r hr
  · intro h' hh' d
    exact hcap h' (List.mem_filter.mp hh').1 d

/-- Inversion of a successful modify loop: the updated list is the
conditional map over the input. -/
theorem modify_hotel_loop_ok_inv (hotels : List Hotel) (hid : String)
    (n c : Option String) (t : Option Int) (u : List Hotel) (f : Bool)
    (h : modify_hotel_loop hotels hid n c t = .ok (u, f)) :
    u = hotels.map
      (fun x => if x.hotel_id == hid then updHotel x n c t else x) := by
  induction hotels generalizing u f with
  | nil =>
    simp only [modify_hotel_loop, Except.ok.injEq, Prod.mk.injEq] at h
    simp [h.1.symm]
  | cons x rest ih =>
    unfold modify_hotel_loop at h
    by_cases hm : (x.hotel_id == hid) = true
    · simp only [hm, Bool.not_true, Bool.false_eq_true, if_false] at h
      split at h
      · exact absurd h (by simp)
      · rcases hrec : modify_hotel_loop rest hid n c t with e | ⟨u', f'⟩ <;>
          rw [hrec] at h
        · exact absurd h (by simp)
        · simp only [Except.ok.injEq, Prod.mk.injEq] at h
          rw [List.map_cons, if_pos hm, ← h.1, ih u' f' hrec]
    · simp only [hm, Bool.not_false, if_true] at h
      rcases hrec : modify_hotel_loop rest hid n c t with e | ⟨u', f'⟩ <;>
        rw [hrec] at h
      · exact absurd h (by simp)
      · simp only [Except.ok.injEq, Prod.mk.injEq] at h
        rw [List.map_cons, if_neg hm, ← h.1, ih u' f' hrec]

/-- `modify_hotel` preserves the invariant as long as a supplied
`total_rooms` does not shrink any matching hotel. -/
theorem Inv_modify_hotel (s : State) (hid : String) (n c : Option String)
    (t : Option Int)
    (hmono : ∀ x : Int, t = some x → ∀ h ∈ s.hotels,
      h.hotel_id = hid → h.total_rooms ≤ x)
    (hI : Inv s) : Inv (modify_hotel s hid n c t).2 := by
  obtain ⟨hnd, hres, hcap⟩ := hI
  unfold modify_hotel
  rcases hloop : modify_hotel_loop s.hotels hid n c t with e | ⟨u, f⟩
  · exact ⟨hnd, hres, hcap⟩
  cases f with
  | false => exact ⟨hnd, hres, hcap⟩
  | true =>
    have hu := modify_hotel_loop_ok_inv s.hotels hid n c t u true hloop
    simp only [Bool.not_true, Bool.false_eq_true, if_false]
    have hids : u.map Hotel.hotel_id = s.hotels.map Hotel.hotel_id := by
      rw [hu, List.map_map]
      apply List.map_congr_left
      intro a _
      by_cases hm : (a.hotel_id == hid) = true <;>
        simp [Function.comp, hm, updHotel]
    refine ⟨?_, ?_, ?_⟩
    · rw [hids]; exact hnd
    · intro r hr
      refine ⟨(hres r hr).1, ?_⟩
      obtain ⟨h₀, hh₀, hid₀⟩ := (hres r hr).2
      refine ⟨(if h₀.hotel_id == hid then updHotel h₀ n c t else h₀), ?_, ?_⟩
      · rw [hu]; exact List.mem_map_of_mem _ hh₀
      · by_cases hm : (h₀.hotel_id == hid) = true
        · rw [if_pos hm]; exact hid₀
        · rw [if_neg hm]; exact hid₀
    · intro h' hh' d
      rw [hu] at hh'
      obtain ⟨h₀, hh₀, rfl⟩ := List.mem_map.mp hh'
      by_cases hm : (h₀.hotel_id == hid) = true
      · simp only [hm, if_true]
        have hle : activeRooms s.reservations (updHotel h₀ n c t).hotel_id d ≤
            h₀.total_rooms := hcap h₀ hh₀ d
        have htot : h₀.total_rooms ≤ (updHotel h₀ n c t).total_rooms := by
          cases ht : t with
          | none => simp [updHotel, ht]
          | some x =>
            have := hmono x ht h₀ hh₀ (by simpa using hm)
            simp [updHotel, ht]
            omega
        omega
      · simp only [hm, Bool.false_eq_true, if_false]
        exact hcap h₀ hh₀ d

/-- `create_customer` preserves the invariant. -/
theorem Inv_create_customer (s : State) (c : Customer) (hI : Inv s) :
    Inv (create_customer s c).2 := by
  refine Inv_of_eq_parts s _ ?_ ?_ hI <;>
    (unfold create_customer; split <;> rfl)

/-- `delete_customer` preserves the invariant. -/
theorem Inv_delete_customer (s : State) (cid : String) (hI : Inv s) :
    Inv (delete_customer s cid).2 := by
  refine Inv_of_eq_parts s _ ?_ ?_ hI <;>
    (unfold delete_customer; split <;> [rfl; split <;> rfl])

/-- `modify_customer` preserves the invariant. -/
theorem Inv_modify_customer (s : State) (cid : String) (fn em : Option String)
    (hI : Inv s) : Inv (modify_customer s cid fn em).2 := by
  refine Inv_of_eq_parts s _ ?_ ?_ hI <;>
    (unfold modify_customer; split; split <;> rfl)

/-- `cancel_reservation` preserves the invariant. -/
theorem Inv_cancel_reservation (s : State) (rid : String) (hI : Inv s) :
    Inv (cancel_reservation s rid).2 := by
  obtain ⟨hnd, hres, hcap⟩ := hI
  unfold cancel_reservation
  split
  · exact ⟨hnd, hres, hcap⟩
  refine ⟨hnd, ?_, ?_⟩
  · intro r hr
    exact hres r (List.mem_filter.mp hr).1
  · intro h' hh' d
    calc activeRooms (s.reservations.filter
          (fun r => !(r.reservation_id == rid))) h'.hotel_id d ≤
        activeRooms s.reservations h'.hotel_id d :=
          activeRooms_filter_le _ _ _ _
            (fun r hr => le_of_lt (hres r hr).1)
      _ ≤ h'.total_rooms := hcap h' hh' d

/-- `create_reservation` preserves the invariant: the capacity check over
the requested range bounds the committed rooms on every day inside it,
and days outside it are untouched. -/
theorem Inv_create_reservation (s : State) (hid cid : String) (ci co : Date)
    (rooms : Int) (rid : Option String) (gen : String) (hI : Inv s) :
    Inv (create_reservation s hid cid ci co rooms rid gen).2 := by
  obtain ⟨hnd, hres, hcap⟩ := hI
  unfold create_reservation
  by_cases h0 : rooms ≤ 0
  · simpa [h0] using ⟨hnd, hres, hcap⟩
  by_cases hdl : Date.leb co ci = true
  · simpa [h0, hdl] using ⟨hnd, hres, hcap⟩
  rcases hget : index_get? s.hotels Hotel.hotel_id hid with _ | hotel
  · simpa [h0, hdl, hget] using ⟨hnd, hres, hcap⟩
  by_cases hcu : index_contains s.customers Customer.customer_id cid = true
  case neg => simpa [h0, hdl, hget, hcu] using ⟨hnd, hres, hcap⟩
  by_cases hav : hotel.total_rooms - reservedRooms s.reservations hid ci co <
      rooms
  · simpa [h0, hdl, hget, hcu, hav] using ⟨hnd, hres, hcap⟩
  obtain ⟨hhot, hhid⟩ := index_get?_some s.hotels Hotel.hotel_id hid hotel hget
  simp only [h0, hdl, hget, hcu, hav, Bool.false_eq_true, if_false,
    Bool.not_true, if_neg, not_false_iff]
  refine ⟨hnd, ?_, ?_⟩
  · intro r hr
    rcases List.mem_append.mp hr with hold | hnew
    · exact hres r hold
    · simp only [List.mem_singleton] at hnew
      subst hnew
      refine ⟨?_, hotel, hhot, hhid⟩
      show (0 : Int) < rooms
      omega
  · intro h' hh' d
    rw [activeRooms_append]
    have hpos : ∀ r ∈ s.reservations, 0 ≤ r.rooms :=
      fun r hr => le_of_lt (hres r hr).1
    by_cases hact : ((⟨resolveReservationId rid gen, hid, cid, ci, co,
        rooms⟩ : Reservation).hotel_id == h'.hotel_id &&
        Date.leb (⟨resolveReservationId rid gen, hid, cid, ci, co,
          rooms⟩ : Reservation).check_in d &&
        Date.ltb d (⟨resolveReservationId rid gen, hid, cid, ci, co,
          rooms⟩ : Reservation).check_out) = true
    · rw [if_pos hact]
      simp only [Bool.and_eq_true, beq_iff_eq, Date.leb_iff, Date.ltb_iff] at hact
      obtain ⟨⟨hideq, hled⟩, hltd⟩ := hact
      have hsame : h' = hotel := by
        apply List.inj_on_of_nodup_map hnd hh' hhot
        rw [hhid, ← hideq]
      subst hsame
      have hbound : activeRooms s.reservations h'.hotel_id d ≤
          reservedRooms s.reservations hid ci co := by
        rw [hhid]
        exact activeRooms_le_reservedRooms s.reservations hid ci co d
          hled hltd hpos
      have hrooms : (⟨resolveReservationId rid gen, hid, cid, ci, co,
          rooms⟩ : Reservation).rooms = rooms := rfl
      rw [hrooms]
      omega
    · rw [if_neg hact]
      have := hcap h' hh' d
      omega

/-- Every reachable state satisfies the invariant. -/
theorem Reach_Inv (s : State) (h : Reach s) : Inv s := by
  induction h with
  | init => exact ⟨by simp, by simp, by simp⟩
  | stepCreateHotel h _ ih => exact Inv_create_hotel _ h ih
  | stepDeleteHotel hid _ ih => exact Inv_delete_hotel _ hid ih
  | stepModifyHotel hid n c t hmono _ ih => exact Inv_modify_hotel _ hid n c t hmono ih
  | stepCreateCustomer c _ ih => exact Inv_create_customer _ c ih
  | stepDeleteCustomer cid _ ih => exact Inv_delete_customer _ cid ih
  | stepModifyCustomer cid fn em _ ih => exact Inv_modify_customer _ cid fn em ih
  | stepCreateReservation hid cid ci co rooms rid gen _ ih =>
      exact Inv_create_reservation _ hid cid ci co rooms rid gen ih
  | stepCancelReservation rid _ ih => exact Inv_cancel_reservation _ rid ih

/-- The claim's invariant, verbatim: over every reachable state, for
every hotel and every date range `[ci, co)`, the sum of rooms over the
reservations on the hotel overlapping that range stays within
`total_rooms`. -/
def rangeCapacityClaim : Prop :=
  ∀ s : State, Reach s → ∀ h ∈ s.hotels, ∀ ci co : Date, Date.Lt ci co →
    specOverlapRooms s.reservations h.hotel_id ci co ≤ h.total_rooms

/-- C1 fails on the code as stated: two reservations on disjoint date
ranges (6 rooms on [Jan 1, Jan 2) and 6 on [Jan 3, Jan 4), hotel capacity
10) are both accepted — they do not overlap each other — yet both overlap
the spanning query range [Jan 1, Jan 4), whose overlap sum is 12 > 10.
The range-indexed invariant the spec states is therefore violated in a
state reachable through successful operations alone. -/
theorem C1_counterexample : ¬ rangeCapacityClaim := by
  intro hcl
  have hreach : Reach ((create_reservation ((create_reservation
      ((create_customer ((create_hotel ⟨[], [], []⟩
        ⟨"H1", "N", "C", 10⟩).2) ⟨"C1", "F", "E"⟩).2)
      "H1" "C1" ⟨2026, 1, 1⟩ ⟨2026, 1, 2⟩ 6 (some "RA") "t1").2)
      "H1" "C1" ⟨2026, 1, 3⟩ ⟨2026, 1, 4⟩ 6 (some "RB") "t2").2) :=
    Reach.stepCreateReservation _ _ _ _ _ _ _
      (Reach.stepCreateReservation _ _ _ _ _ _ _
        (Reach.stepCreateCustomer _
          (Reach.stepCreateHotel _ Reach.init)))
  have hle := hcl _ hreach ⟨"H1", "N", "C", 10⟩ (by decide)
    ⟨2026, 1, 1⟩ ⟨2026, 1, 4⟩ (by decide)
  have hsum : specOverlapRooms ((create_reservation ((create_reservation
      ((create_customer ((create_hotel ⟨[], [], []⟩
        ⟨"H1", "N", "C", 10⟩).2) ⟨"C1", "F", "E"⟩).2)
      "H1" "C1" ⟨2026, 1, 1⟩ ⟨2026, 1, 2⟩ 6 (some "RA") "t1").2)
      "H1" "C1" ⟨2026, 1, 3⟩ ⟨2026, 1, 4⟩ 6 (some "RB") "t2").2).reservations
      "H1" ⟨2026, 1, 1⟩ ⟨2026, 1, 4⟩ = 12 := by decide
  rw [hsum] at hle
  exact absurd hle (by decide)

/-- C1 amended: the range-indexed form is false (see the counterexample:
disjoint reservations both overlap a spanning query range), but the
per-day form holds and is what the availability check actually protects:
in every state reachable from empty collections through successful
operations — with `modify_hotel` allowed whenever it does not shrink a
hotel's `total_rooms` — every hotel's committed rooms on every single day
stay within its `total_rooms`. An unrestricted `modify_hotel` violates
even the per-day form, since it re-validates only `total_rooms > 0` and
may shrink capacity below already-committed demand. -/
theorem C1_per_day_capacity_invariant (s : State) (hreach : Reach s) :
    ∀ h ∈ s.hotels, ∀ d : Date,
      activeRooms s.reservations h.hotel_id d ≤ h.total_rooms :=
  (Reach_Inv s hreach).2.2

/-- Witness for C1's amended statement on a concrete reachable state with
two reservations. -/
theorem C1_per_day_capacity_invariant_witness :
    activeRooms ((create_reservation ((create_reservation
      ((create_customer ((create_hotel ⟨[], [], []⟩
        ⟨"H1", "N", "C", 10⟩).2) ⟨"C1", "F", "E"⟩).2)
      "H1" "C1" ⟨2026, 1, 1⟩ ⟨2026, 1, 2⟩ 6 (some "RA") "t1").2)
      "H1" "C1" ⟨2026, 1, 3⟩ ⟨2026, 1, 4⟩ 6 (some "RB") "t2").2).reservations
      "H1" ⟨2026, 1, 1⟩ ≤ (10 : Int) :=
  C1_per_day_capacity_invariant _
    (Reach.stepCreateReservation _ _ _ _ _ _ _
      (Reach.stepCreateReservation _ _ _ _ _ _ _
        (Reach.stepCreateCustomer _
          (Reach.stepCreateHotel _ Reach.init))))
    ⟨"H1", "N", "C", 10⟩ (by decide) ⟨2026, 1, 1⟩

end HotelSys
